import Mathlib

/-!
# openvpn-authd: issuance and health handlers

A shallow embedding of `vault.go` and `server.go`.  Go functions become Lean
functions; calls that leave the process (the Vault API client, the HTTP client,
the template engine, the operating system) take their outcome from an explicit
environment `Env`, and the effects a handler performs are recorded in an
explicit `World` (event log and filesystem).  A Go panic is a value of `Go`.
Two library functions whose result decides a property are modelled in full:
`fmt.Sprintf` without operands and `json.Unmarshal` into a `HealthResponse`.
-/

namespace OpenVPNAuthd

/-! ## Go values and results -/

/-- A Go `error` value, identified with its text (`err.Error()`). -/
abbrev GoError := String

/-- A `time.Duration`: a count of nanoseconds. -/
abbrev Duration := Int

/-- A `time.Time`, as nanoseconds since an epoch. -/
structure Time where
  ns : Int

/-- `Time.Add` of package `time`. -/
def Time.Add (t : Time) (d : Duration) : Time := ⟨t.ns + d⟩

/-- A dynamically typed Go value (`interface{}`): what a
`map[string]interface{}` such as `Secret.Data` or `gin.H` holds. -/
inductive GoValue where
  | null
  | bool (b : Bool)
  | num (n : Int)
  | str (s : String)
  | slice (xs : List GoValue)
  | duration (d : Duration)
  | time (t : Time)

/-- A `map[string]interface{}`, as an association list. -/
abbrev GoMap := List (String × GoValue)

/-- Outcome of running a Go function: it returns, or it panics. -/
inductive Go (α : Type) where
  | ret (a : α)
  | panic (msg : String)

/-- Sequencing of Go code: a panic aborts what follows. -/
def Go.bind {α β : Type} (x : Go α) (f : α → Go β) : Go β :=
  match x with
  | .ret a => f a
  | .panic m => .panic m

/-- Whether the outcome is a panic. -/
def Go.isPanic {α : Type} : Go α → Bool
  | .ret _ => false
  | .panic _ => true

/-- The type assertion `v.([]interface{})` on the result of a map lookup. -/
def assertSlice : Option GoValue → Go (List GoValue)
  | some (.slice xs) => .ret xs
  | some _ => .panic "interface conversion: interface {} is not []interface {}"
  | none => .panic "interface conversion: interface {} is nil, not []interface {}"

/-- The type assertion `v.(string)`. -/
def assertString : Option GoValue → Go String
  | some (.str s) => .ret s
  | some _ => .panic "interface conversion: interface {} is not string"
  | none => .panic "interface conversion: interface {} is nil, not string"

/-- The index expression `xs[i]` on a slice. -/
def index (xs : List GoValue) (i : Nat) : Go GoValue :=
  match xs.get? i with
  | some v => .ret v
  | none => .panic "runtime error: index out of range"

/-! ## `fmt.Sprintf` without operands

`GetCertificate` calls `fmt.Sprintf(path)`: the path is the format string and
there are no operands.  `doPrintf` below follows `doPrintf` of package `fmt`
specialised to an empty operand list. -/

namespace fmt

/-- A flag character after `%`. -/
def isFlag (c : Char) : Bool :=
  c == '#' || c == '0' || c == '+' || c == '-' || c == ' '

/-- `tooLarge` of package `fmt`. -/
def tooLarge (x : Nat) : Bool := x > 1000000

/-- `parsenum`: reads a decimal number; returns its value, whether a digit was
read, and the unread rest.  A number that is too large consumes everything. -/
def parsenum : List Char → Nat → Bool → Nat × Bool × List Char
  | [], num, isnum => (num, isnum, [])
  | c :: cs, num, isnum =>
    if '0' ≤ c ∧ c ≤ '9' then
      if tooLarge num then (0, false, [])
      else parsenum cs (num * 10 + (c.toNat - 48)) true
    else (num, isnum, c :: cs)

/-- `argNumber` with no operands: an explicit index `[n]` is skipped and is
always a bad index.  Returns the unread rest, `found`, and whether a bracket
was seen (which clears `goodArgNum`). -/
def argNumber (s : List Char) : List Char × Bool × Bool :=
  match s with
  | '[' :: t =>
    if t.length + 1 < 3 then (t, false, true)
    else
      match t.span (fun c => c != ']') with
      | (digits, ']' :: rest) =>
        match parsenum digits 0 false with
        | (_, ok, unread) => (rest, ok && unread.isEmpty, true)
      | (_, _) => (t, false, true)
  | _ => (s, false, false)

/-- The width of a directive: `*` takes its value from an operand, of which
there is none, and prints `%!(BADWIDTH)`; otherwise a number is read.  Returns
the unread rest, what is printed, `afterIndex`, and whether the argument index
is bad. -/
def width (s : List Char) (afterIndex bad : Bool) : List Char × List Char × Bool × Bool :=
  match s with
  | '*' :: t => (t, "%!(BADWIDTH)".toList, false, bad)
  | _ =>
    match parsenum s 0 false with
    | (_, present, t) => (t, [], afterIndex, bad || (afterIndex && present))

/-- The precision of a directive: a `.` that is not the last character of
the format, then an optional argument index, then `*` (printing
`%!(BADPREC)` and clearing `afterIndex`) or a number.  A `.` that ends the
format is left to be read as the verb. -/
def precision (s : List Char) (afterIndex bad : Bool) : List Char × List Char × Bool × Bool :=
  match s with
  | '.' :: c :: t =>
    match argNumber (c :: t) with
    | (t1, found, badIndex) =>
      match t1 with
      | '*' :: u => (u, "%!(BADPREC)".toList, false, bad || afterIndex || badIndex)
      | _ =>
        match parsenum t1 0 false with
        | (_, _, u) => (u, [], found, bad || afterIndex || badIndex)
  | _ => (s, [], afterIndex, bad)

/-- One directive, read after its `%`: flags, argument index, width,
precision, argument index, verb.  Returns what is printed and the unread rest;
the rest is `none` when the format ends before the verb. -/
def directive (r0 : List Char) : List Char × Option (List Char) :=
  let r1 := r0.dropWhile isFlag
  match argNumber r1 with
  | (r2, afterIndex1, bad1) =>
    match width r2 afterIndex1 bad1 with
    | (r3, out1, afterIndex2, bad2) =>
      match precision r3 afterIndex2 bad2 with
      | (r4, out2, afterIndex3, bad3) =>
        let last := if afterIndex3 then (r4, false, false) else argNumber r4
        match last.1 with
        | [] => (out1 ++ out2 ++ "%!(NOVERB)".toList, none)
        | verb :: rest =>
          let shown :=
            if verb == '%' then ['%']
            else if bad3 || last.2.2 then "%!".toList ++ [verb] ++ "(BADINDEX)".toList
            else "%!".toList ++ [verb] ++ "(MISSING)".toList
          (out1 ++ out2 ++ shown, some rest)

/-- The format loop of `doPrintf`, with no operands: literal text up to the
next `%` is copied, then one directive is processed.  The first argument
bounds the number of directives. -/
def doPrintf : Nat → List Char → List Char
  | 0, _ => []
  | fuel + 1, format =>
    match format.span (fun c => c != '%') with
    | (lit, []) => lit
    | (lit, _ :: r0) =>
      match directive r0 with
      | (out, none) => lit ++ out
      | (out, some rest) => lit ++ out ++ doPrintf fuel rest

/-- `fmt.Sprintf(format)` with no operands. -/
def Sprintf (format : String) : String :=
  String.mk (doPrintf (format.length + 1) format.toList)

end fmt

/-! ## vault.go -/

/-- Modelled from the spec: the declaration of `Certificate` is not among the
sources; these are the fields `GetCertificate` sets (CertificateResult in the
specification). -/
structure Certificate where
  Certificate : String
  PrivateKey : String
  IssuingCA : String
  TTL : Duration
  Subject : String

/-- The `api.Secret` of the Vault client; only `Data` is used. -/
structure Secret where
  Data : GoMap

/-- `HealthResponse` of vault.go. -/
structure HealthResponse where
  VaultInitialized : Bool
  VaultSealed : Bool
  VaultStandby : Bool
  VaultReplicationPerformanceMode : String
  VaultReplicationDrMode : String
  VaultServerTimeUtc : Int
  VaultVersion : String
  VaultClusterId : String
  VaultClusterName : String
  AppVersion : String

/-- The zero value `new(HealthResponse)`. -/
def HealthResponse.zero : HealthResponse :=
  ⟨false, false, false, "", "", 0, "", "", "", ""⟩

/-! ## The outside world -/

/-- An entry of the filesystem: a file with its content, or a directory. -/
structure Entry where
  path : String
  parent : String
  isDir : Bool
  content : String

/-- The filesystem: the entries that exist. -/
abbrev FS := List Entry

/-- Whether something exists at `p`. -/
def FS.present (fs : FS) (p : String) : Bool := fs.any (fun e => e.path == p)

/-- Whether anything lies directly inside directory `p`. -/
def FS.occupied (fs : FS) (p : String) : Bool := fs.any (fun e => e.parent == p)

/-- The content of the file at `p`, when there is one. -/
def FS.read (fs : FS) (p : String) : Option String :=
  (fs.find? (fun e => e.path == p && !e.isDir)).map (fun e => e.content)

/-- A call a handler makes to the outside. -/
inductive Event where
  | vaultWrite (path : String) (data : GoMap)
  | readFile (path : String)
  | parseFiles (path : String)
  | execute (fields : GoMap)
  | tempDir (dir pattern : String)
  | tempFile (dir pattern : String)
  | writeString (file content : String)
  | closeFile (file : String)
  | remove (path : String)
  | serveFile (path : String)
  | httpGet (url : String)

/-- What the handlers act on: the filesystem and the log of calls made. -/
structure World where
  fs : FS
  log : List Event

/-- Append a call to the log. -/
def World.record (w : World) (e : Event) : World := { w with log := w.log ++ [e] }

/-- A parsed template (`*template.Template`). -/
structure Template where
  text : String

/-- The response of `http.Get` as `GetVaultHealth` uses it: what
`ioutil.ReadAll(res.Body)` returns, the bytes read and the read error. -/
structure HttpResponse where
  body : String
  readErr : Option GoError

/-- The body of a response. -/
inductive Body where
  | empty
  | text (s : String)
  | json (h : HealthResponse)
  | file (path content : String)

/-- Whether a file is served as the body. -/
def Body.isFile : Body → Bool
  | .file _ _ => true
  | _ => false

namespace json

/-- Why `json.Unmarshal` fails: the body is not JSON (`*json.SyntaxError`), or
a value does not fit its target (`*json.UnmarshalTypeError`, with its `Value`
and the JSON name of the field, empty at the top level). -/
inductive Failure where
  | invalid
  | mismatch (value field : String)

end json

/-- Outcomes of the calls that leave the process. -/
structure Env where
  /-- the build constant `Version` -/
  Version : String
  /-- `time.Now()` -/
  now : Time
  /-- `textproto.CanonicalMIMEHeaderKey` -/
  canonicalMIMEHeaderKey : String → String
  /-- `time.Duration.String` -/
  durationString : Duration → String
  /-- `client.Logical().Write(path, data)`: a secret (possibly nil) and an error -/
  logicalWrite : String → GoMap → Option Secret × Option GoError
  /-- `ioutil.ReadFile` -/
  readFile : String → Except GoError String
  /-- `template.ParseFiles` -/
  parseFiles : String → Except GoError Template
  /-- `t.Execute(&buf, data)`: what reached the buffer, and the error -/
  execute : Template → GoMap → String × Option GoError
  /-- `ioutil.TempDir(dir, pattern)`: the name of the directory created -/
  tempDir : String → String → Except GoError String
  /-- `ioutil.TempFile(dir, pattern)`: the name of the file created -/
  tempFile : String → String → Except GoError String
  /-- `f.WriteString(s)`: `none` when all of `s` was written, else what was
  written and the error -/
  writeString : String → String → Option (String × GoError)
  /-- `f.Close()` -/
  closeFile : String → Option GoError
  /-- `http.Get(url)` -/
  httpGet : String → Except GoError HttpResponse
  /-- `strconv.IntSize`: the width of `int`, 32 or 64 -/
  intSize : Nat
  /-- the text of the error `json.Unmarshal` returns for a failure -/
  jsonErrorText : json.Failure → GoError
  /-- `http.ServeFile` on a request that carries a `Range` or `If-...` header:
  the status and the body, from the header, the file's name and its content -/
  serveContent : List (String × List String) → String → String → Nat × Body

/-! ## encoding/json

`GetVaultHealth` calls `json.Unmarshal(body, s)` with `s` a `*HealthResponse`.
The model reads the body into a document, as the scanner of package
`encoding/json` accepts it, and decodes the document into the struct as
`decode.go` does for a struct of `bool`, `string` and `int` fields. -/

namespace json

/-- A JSON document.  A number keeps its literal. -/
inductive Value where
  | null
  | bool (b : Bool)
  | number (lit : String)
  | string (s : String)
  | array (xs : List Value)
  | object (members : List (String × Value))

/-- `isSpace` of the scanner. -/
def isSpace (c : Char) : Bool := c == ' ' || c == '\t' || c == '\r' || c == '\n'

/-- Skips white space. -/
def skipSpace : List Char → List Char
  | [] => []
  | c :: cs => if isSpace c then skipSpace cs else c :: cs

/-- The value of a hexadecimal digit. -/
def hexVal (c : Char) : Option Nat :=
  if '0' ≤ c ∧ c ≤ '9' then some (c.toNat - 48)
  else if 'a' ≤ c ∧ c ≤ 'f' then some (c.toNat - 87)
  else if 'A' ≤ c ∧ c ≤ 'F' then some (c.toNat - 55)
  else none

/-- `getu4`: the code unit spelled by four hexadecimal digits. -/
def getu4 (a b c d : Char) : Option Nat :=
  match hexVal a, hexVal b, hexVal c, hexVal d with
  | some x, some y, some z, some w => some (((x * 16 + y) * 16 + z) * 16 + w)
  | _, _, _, _ => none

/-- The replacement character U+FFFD. -/
def replacementChar : Char := Char.ofNat 0xFFFD

/-- The accumulated string, with U+FFFD for a high surrogate that found no
low surrogate. -/
def flush (hi : Option Nat) (acc : List Char) : List Char :=
  match hi with
  | some _ => acc ++ [replacementChar]
  | none => acc

/-- The rest of a string literal, after the opening quote: the string it
spells, and what follows the closing quote.  A character below U+0020 and an
unknown escape are invalid.  `hi` is an escaped high surrogate just read: with
an escaped low surrogate right after it, it makes one character; any other
lone surrogate becomes U+FFFD. -/
def scanString : List Char → Option Nat → List Char → Option (List Char × List Char)
  | [], _, _ => none
  | '"' :: rest, hi, acc => some (flush hi acc, rest)
  | '\\' :: 'u' :: a :: b :: c :: d :: rest, hi, acc =>
    match getu4 a b c d with
    | none => none
    | some rr =>
      match hi, decide (0xDC00 ≤ rr ∧ rr < 0xE000) with
      | some h, true =>
        scanString rest none (acc ++ [Char.ofNat (0x10000 + (h - 0xD800) * 1024 + (rr - 0xDC00))])
      | _, _ =>
        if 0xD800 ≤ rr ∧ rr < 0xDC00 then scanString rest (some rr) (flush hi acc)
        else if 0xDC00 ≤ rr ∧ rr < 0xE000 then
          scanString rest none (flush hi acc ++ [replacementChar])
        else scanString rest none (flush hi acc ++ [Char.ofNat rr])
  | '\\' :: c :: rest, hi, acc =>
    match c with
    | '"' => scanString rest none (flush hi acc ++ ['"'])
    | '\\' => scanString rest none (flush hi acc ++ ['\\'])
    | '/' => scanString rest none (flush hi acc ++ ['/'])
    | 'b' => scanString rest none (flush hi acc ++ [Char.ofNat 8])
    | 'f' => scanString rest none (flush hi acc ++ [Char.ofNat 12])
    | 'n' => scanString rest none (flush hi acc ++ ['\n'])
    | 'r' => scanString rest none (flush hi acc ++ ['\r'])
    | 't' => scanString rest none (flush hi acc ++ ['\t'])
    | _ => none
  | c :: rest, hi, acc =>
    if c.toNat < 0x20 then none else scanString rest none (flush hi acc ++ [c])

/-- A decimal digit. -/
def isDigit (c : Char) : Bool := decide ('0' ≤ c ∧ c ≤ '9')

/-- The digits of an exponent: at least one. -/
def scanExponentDigits (lit rest : List Char) : Option (List Char × List Char) :=
  match rest.span isDigit with
  | ([], _) => none
  | (ds, r) => some (lit ++ ds, r)

/-- The sign of an exponent, if there is one, and its digits. -/
def scanExponentSign (lit rest : List Char) : Option (List Char × List Char) :=
  match rest with
  | '+' :: t => scanExponentDigits (lit ++ ['+']) t
  | '-' :: t => scanExponentDigits (lit ++ ['-']) t
  | _ => scanExponentDigits lit rest

/-- The exponent of a number, if there is one. -/
def scanExponent (lit rest : List Char) : Option (List Char × List Char) :=
  match rest with
  | 'e' :: t => scanExponentSign (lit ++ ['e']) t
  | 'E' :: t => scanExponentSign (lit ++ ['E']) t
  | _ => some (lit, rest)

/-- The fraction and the exponent of a number, if there are any. -/
def scanFraction (lit rest : List Char) : Option (List Char × List Char) :=
  match rest with
  | '.' :: t =>
    match t.span isDigit with
    | ([], _) => none
    | (ds, r) => scanExponent (lit ++ '.' :: ds) r
  | _ => scanExponent lit rest

/-- The integer part of a number, after the sign, and what may follow it: a
single `0`, or digits that begin with `1` to `9`. -/
def scanInteger (sign l : List Char) : Option (List Char × List Char) :=
  match l with
  | '0' :: t => scanFraction (sign ++ ['0']) t
  | c :: t =>
    if '1' ≤ c ∧ c ≤ '9' then
      match t.span isDigit with
      | (ds, r) => scanFraction (sign ++ c :: ds) r
    else none
  | [] => none

/-- A number: its literal and what follows it. -/
def scanNumber (l : List Char) : Option (List Char × List Char) :=
  match l with
  | '-' :: t => scanInteger ['-'] t
  | _ => scanInteger [] l

/-- `maxNestingDepth` of the scanner. -/
def maxNestingDepth : Nat := 10000

/-- What `parse` reads: a value; the elements of an array from an element on,
after those in `acc`; the members of an object from a key on. -/
inductive Mode where
  | value
  | elements (acc : List Value)
  | members (acc : List (String × Value))

/-- The size of what `parse` has to read: twice the length of the input, and
one more inside an array or object. -/
def Mode.weight : Mode → Nat
  | .value => 0
  | .elements _ => 1
  | .members _ => 1

/-- A value that is no array and no object: a string, `true`, `false`,
`null` or a number, with what follows it. -/
def scanScalar (l : List Char) : Option (Value × List Char) :=
  match l with
  | '"' :: t =>
    match scanString t none [] with
    | some (str, r) => some (.string (String.mk str), r)
    | none => none
  | 't' :: 'r' :: 'u' :: 'e' :: r => some (.bool true, r)
  | 'f' :: 'a' :: 'l' :: 's' :: 'e' :: r => some (.bool false, r)
  | 'n' :: 'u' :: 'l' :: 'l' :: r => some (.null, r)
  | _ =>
    match scanNumber l with
    | some (lit, r) => some (.number (String.mk lit), r)
    | none => none

/-- The key of a member and the colon after it: the key, and what follows
the colon and the white space after it. -/
def scanKey (l : List Char) : Option (String × List Char) :=
  match l with
  | '"' :: t =>
    match scanString t none [] with
    | some (key, r) =>
      match skipSpace r with
      | ':' :: r1 => some (String.mk key, skipSpace r1)
      | _ => none
    | none => none
  | _ => none

/-- Reads a value, or the rest of an array or object, and returns it with
what follows.  `depth` counts the arrays and objects that are open.  The
first argument bounds the number of calls. -/
def parse : Nat → Nat → Mode → List Char → Option (Value × List Char)
  | 0, _, _, _ => none
  | fuel + 1, depth, .value, l =>
    match l with
    | '{' :: t =>
      if depth + 1 > maxNestingDepth then none
      else
        match skipSpace t with
        | '}' :: r => some (.object [], r)
        | r => parse fuel (depth + 1) (.members []) r
    | '[' :: t =>
      if depth + 1 > maxNestingDepth then none
      else
        match skipSpace t with
        | ']' :: r => some (.array [], r)
        | r => parse fuel (depth + 1) (.elements []) r
    | _ => scanScalar l
  | fuel + 1, depth, .elements acc, l =>
    match parse fuel depth .value l with
    | none => none
    | some (v, r) =>
      match skipSpace r with
      | ',' :: r1 => parse fuel depth (.elements (acc ++ [v])) (skipSpace r1)
      | ']' :: r1 => some (.array (acc ++ [v]), r1)
      | _ => none
  | fuel + 1, depth, .members acc, l =>
    match scanKey l with
    | none => none
    | some (key, r1) =>
      match parse fuel depth .value r1 with
      | none => none
      | some (v, r2) =>
        match skipSpace r2 with
        | ',' :: r3 => parse fuel depth (.members (acc ++ [(key, v)])) (skipSpace r3)
        | '}' :: r3 => some (.object (acc ++ [(key, v)]), r3)
        | _ => none

/-- The document `data` spells (`checkValid` and the scanner): one value,
with white space around it. -/
def parseDocument (data : String) : Option Value :=
  match parse (2 * data.length + 2) 0 .value (skipSpace data.toList) with
  | some (v, r) => if (skipSpace r).isEmpty then some v else none
  | none => none

/-- The fields of `HealthResponse`. -/
inductive Field where
  | vaultInitialized
  | vaultSealed
  | vaultStandby
  | vaultReplicationPerformanceMode
  | vaultReplicationDrMode
  | vaultServerTimeUtc
  | vaultVersion
  | vaultClusterId
  | vaultClusterName
  | appVersion

/-- The JSON name in the field's tag. -/
def Field.name : Field → String
  | .vaultInitialized => "initialized"
  | .vaultSealed => "sealed"
  | .vaultStandby => "standby"
  | .vaultReplicationPerformanceMode => "replication_performance_mode"
  | .vaultReplicationDrMode => "replication_dr_mode"
  | .vaultServerTimeUtc => "server_time_utc"
  | .vaultVersion => "version"
  | .vaultClusterId => "cluster_id"
  | .vaultClusterName => "cluster_name"
  | .appVersion => "app_version"

/-- The Go type of the field. -/
def Field.goType : Field → String
  | .vaultInitialized => "bool"
  | .vaultSealed => "bool"
  | .vaultStandby => "bool"
  | .vaultServerTimeUtc => "int"
  | _ => "string"

/-- The fields in the order of the struct. -/
def fields : List Field :=
  [.vaultInitialized, .vaultSealed, .vaultStandby, .vaultReplicationPerformanceMode,
   .vaultReplicationDrMode, .vaultServerTimeUtc, .vaultVersion, .vaultClusterId,
   .vaultClusterName, .appVersion]

/-- Simple case folding as far as it reaches ASCII: upper case to lower case,
the Kelvin sign to `k`, the long s to `s`. -/
def foldRune (c : Char) : Char :=
  if c = Char.ofNat 0x212A then 'k'
  else if c = Char.ofNat 0x17F then 's'
  else c.toLower

/-- The folded name; two names are equal under case folding when their folded
names are equal. -/
def foldName (s : String) : List Char := s.toList.map foldRune

/-- The field a member's key names: the one with that name, else the first
whose name equals the key under case folding. -/
def findField (key : String) : Option Field :=
  match fields.find? (fun f => f.name == key) with
  | some f => some f
  | none => fields.find? (fun f => foldName f.name == foldName key)

/-- `strconv.ParseInt(s, 10, 64)`. -/
def parseInt (s : String) : Option Int :=
  let cs := s.toList
  let sign := match cs with
    | '-' :: _ => ['-']
    | '+' :: _ => ['+']
    | _ => []
  let ds := cs.drop sign.length
  if ds.isEmpty || !ds.all isDigit then none
  else
    let n : Int := ds.foldl (fun a c => a * 10 + ((c.toNat - 48 : Nat) : Int)) 0
    let v : Int := if sign == ['-'] then -n else n
    if -(2 : Int) ^ 63 ≤ v ∧ v < (2 : Int) ^ 63 then some v else none

/-- Stores a JSON value in a field (`literalStore`, and `array` and `object`
on a field that is neither): `null` has no effect, a value of the field's type
is stored, anything else is a type error and leaves the field as it was. -/
def store (intSize : Nat) (f : Field) (v : Value) (s : HealthResponse) :
    HealthResponse × Option Failure :=
  match v with
  | .null => (s, none)
  | .array _ => (s, some (.mismatch "array" f.name))
  | .object _ => (s, some (.mismatch "object" f.name))
  | .bool b =>
    match f with
    | .vaultInitialized => ({ s with VaultInitialized := b }, none)
    | .vaultSealed => ({ s with VaultSealed := b }, none)
    | .vaultStandby => ({ s with VaultStandby := b }, none)
    | _ => (s, some (.mismatch "bool" f.name))
  | .string x =>
    match f with
    | .vaultReplicationPerformanceMode => ({ s with VaultReplicationPerformanceMode := x }, none)
    | .vaultReplicationDrMode => ({ s with VaultReplicationDrMode := x }, none)
    | .vaultVersion => ({ s with VaultVersion := x }, none)
    | .vaultClusterId => ({ s with VaultClusterId := x }, none)
    | .vaultClusterName => ({ s with VaultClusterName := x }, none)
    | .appVersion => ({ s with AppVersion := x }, none)
    | _ => (s, some (.mismatch "string" f.name))
  | .number lit =>
    match f with
    | .vaultServerTimeUtc =>
      match parseInt lit with
      | some n =>
        if -(2 : Int) ^ (intSize - 1) ≤ n ∧ n < (2 : Int) ^ (intSize - 1) then
          ({ s with VaultServerTimeUtc := n }, none)
        else (s, some (.mismatch ("number " ++ lit) f.name))
      | none => (s, some (.mismatch ("number " ++ lit) f.name))
    | _ => (s, some (.mismatch "number" f.name))

/-- Decodes the members of an object in their order; a member whose key names
no field is skipped; the first error is the one kept, and decoding goes on
after it. -/
def decodeMembers (intSize : Nat) :
    List (String × Value) → HealthResponse → Option Failure → HealthResponse × Option Failure
  | [], s, saved => (s, saved)
  | (key, v) :: rest, s, saved =>
    match findField key with
    | none => decodeMembers intSize rest s saved
    | some f =>
      match store intSize f v s with
      | (s1, err) => decodeMembers intSize rest s1 (saved.orElse fun _ => err)

/-- Decodes a document into a `HealthResponse`: an object by its members,
`null` without effect, anything else is a type error. -/
def decode (intSize : Nat) (v : Value) (s : HealthResponse) : HealthResponse × Option Failure :=
  match v with
  | .object members => decodeMembers intSize members s none
  | .null => (s, none)
  | .array _ => (s, some (.mismatch "array" ""))
  | .string _ => (s, some (.mismatch "string" ""))
  | .number _ => (s, some (.mismatch "number" ""))
  | .bool _ => (s, some (.mismatch "bool" ""))

/-- `json.Unmarshal(data, s)` for `s` a `*HealthResponse`: the struct after
decoding, and the error.  A body that is not JSON leaves the struct as it
was. -/
def Unmarshal (env : Env) (data : String) (s : HealthResponse) :
    HealthResponse × Option GoError :=
  match parseDocument data with
  | none => (s, some (env.jsonErrorText .invalid))
  | some v =>
    match decode env.intSize v s with
    | (s1, none) => (s1, none)
    | (s1, some failure) => (s1, some (env.jsonErrorText failure))

end json

/-- `os.Remove(name)`: removes a file or an empty directory. -/
def os.Remove (w : World) (name : String) : World × Option GoError :=
  let w1 := w.record (.remove name)
  match w.fs.find? (fun e => e.path == name) with
  | none => (w1, some ("remove " ++ name ++ ": no such file or directory"))
  | some e =>
    if e.isDir && w.fs.occupied name then
      (w1, some ("remove " ++ name ++ ": directory not empty"))
    else
      ({ w1 with fs := w.fs.filter (fun x => x.path != name) }, none)

/-! ## gin.Context -/

/-- The part of `gin.Context` the handlers use: the request header and the
response under construction.  A fresh context has status 200 and no body. -/
structure Context where
  Header : List (String × List String)
  status : Nat
  body : Body
  aborted : Bool

/-- The context gin hands to the first handler of a request. -/
def Context.fresh (header : List (String × List String)) : Context :=
  ⟨header, 200, .empty, false⟩

/-- `Header.Get(key)`: the first value under the canonical key, or "". -/
def Header.Get (env : Env) (h : List (String × List String)) (key : String) : String :=
  match h.lookup (env.canonicalMIMEHeaderKey key) with
  | some (v :: _) => v
  | _ => ""

/-- `cx.AbortWithStatus(code)`. -/
def Context.AbortWithStatus (cx : Context) (code : Nat) : Context :=
  { cx with status := code, aborted := true }

/-- `cx.String(code, text)` (named `Text` here, `String` being the type). -/
def Context.Text (cx : Context) (code : Nat) (s : String) : Context :=
  { cx with status := code, body := .text s }

/-- `cx.JSON(code, obj)`. -/
def Context.JSON (cx : Context) (code : Nat) (h : HealthResponse) : Context :=
  { cx with status := code, body := .json h }

/-- The request headers on which `http.ServeFile` may answer with something
else than the whole file: a range, or a precondition. -/
def conditionalKeys : List String :=
  ["Range", "If-Range", "If-Match", "If-None-Match", "If-Modified-Since", "If-Unmodified-Since"]

/-- Whether the request carries one of the `conditionalKeys`. -/
def conditional (header : List (String × List String)) : Bool :=
  conditionalKeys.any (fun k => (header.lookup k).isSome)

/-- `cx.File(path)`, that is `http.ServeFile`: a file that can be opened is
served whole with status 200 when the request carries no range and no
precondition, and as the library decides otherwise; a file that cannot be
opened gives 404. -/
def Context.File (env : Env) (cx : Context) (w : World) (path : String) : Context × World :=
  let w1 := w.record (.serveFile path)
  match w.fs.read path with
  | some content =>
    if conditional cx.Header then
      match env.serveContent cx.Header path content with
      | (code, body) => ({ cx with status := code, body := body }, w1)
    else ({ cx with status := 200, body := .file path content }, w1)
  | none => ({ cx with status := 404, body := .text "404 page not found\n" }, w1)

/-! ## vault.go: GetCertificate and GetVaultHealth -/

/-- Modelled from the spec: the declaration of `AuthConfig` is not among the
sources; these are the fields the handlers read (the configuration surface of
the specification). -/
structure AuthConfig where
  VaultURL : String
  AuthHeader : String
  VaultPath : String
  SessionDuration : Duration
  OpenVPNtlsAuth : String
  servers : GoValue

/-- The service `openvpnAuthd` of server.go; its `vault` is the client of
vault.go. -/
structure openvpnAuthd where
  config : AuthConfig

/-- `(*vault).GetCertificate` of vault.go. -/
def vault.GetCertificate (env : Env) (subject path : String) (ttl : Duration) (w : World) :
    Go (Option Certificate × Option GoError) × World :=
  let target := fmt.Sprintf path
  let data : GoMap := [("common_name", .str subject), ("ttl", .str (env.durationString ttl))]
  let w1 := w.record (.vaultWrite target data)
  match env.logicalWrite target data with
  | (_, some err) => (.ret (none, some err), w1)
  | (none, none) => (.panic "runtime error: invalid memory address or nil pointer dereference", w1)
  | (some secret, none) =>
    -- add the full ca chain
    let result :=
      (assertSlice (secret.Data.lookup "ca_chain")).bind fun c0 =>
      (index c0 0).bind fun e0 =>
      (assertString (some e0)).bind fun s0 =>
      (assertSlice (secret.Data.lookup "ca_chain")).bind fun c1 =>
      (index c1 1).bind fun e1 =>
      (assertString (some e1)).bind fun s1 =>
      let caChain := s0 ++ "\n" ++ s1
      -- step: package the certificate
      (assertString (secret.Data.lookup "certificate")).bind fun certificate =>
      (assertString (secret.Data.lookup "private_key")).bind fun privateKey =>
      .ret (some ⟨certificate, privateKey, caChain, ttl, subject⟩, none)
    (result, w1)

/-- `GetVaultHealth` of vault.go. -/
def GetVaultHealth (env : Env) (r : openvpnAuthd) (w : World) :
    (HealthResponse × Option GoError) × World :=
  let path := r.config.VaultURL ++ "/v1/sys/health"
  let w1 := w.record (.httpGet path)
  let s := HealthResponse.zero
  match env.httpGet path with
  | .error err => ((s, some err), w1)
  | .ok res =>
    -- body, err := ioutil.ReadAll(res.Body); err = json.Unmarshal(body, s)
    let body := res.body
    match json.Unmarshal env body s with
    | (s1, some err) => ((s1, some err), w1)
    | (s1, none) => ((s1, none), w1)

/-! ## server.go -/

/-- `writeVPNFile` of server.go.  The two deferred `os.Remove` calls are
registered after the temporary file has been created and run, last
registered first, on every return after that point. -/
def writeVPNFile (env : Env) (d : String) (cx : Context) (w : World) : Context × World :=
  let w1 := w.record (.tempDir "./static/" "")
  match env.tempDir "./static/" "" with
  | .error _ => (cx.AbortWithStatus 500, w1)
  | .ok dir =>
    let w2 := { w1 with fs := w1.fs ++ [Entry.mk dir "./static/" true ""] }
    let w3 := w2.record (.tempFile dir "certfile")
    match env.tempFile dir "certfile" with
    | .error _ => (cx.AbortWithStatus 500, w3)
    | .ok name =>
      let w4 := { w3 with fs := w3.fs ++ [Entry.mk name dir false ""] }
      let deferred (v : World) : World := (os.Remove (os.Remove v name).1 dir).1
      let setContent (v : World) (s : String) : World :=
        { v with fs := v.fs.map (fun e => if e.path == name then { e with content := s } else e) }
      let w5 := w4.record (.writeString name d)
      match env.writeString name d with
      | some (written, _) => (cx.AbortWithStatus 500, deferred (setContent w5 written))
      | none =>
        let w6 := setContent w5 d
        let w7 := w6.record (.closeFile name)
        match env.closeFile name with
        | some _ => (cx.AbortWithStatus 500, deferred w7)
        | none =>
          match cx.File env w7 name with
          | (cx1, w8) => (cx1, deferred w8)

/-- `templateFile` of server.go.  The error of `t.Execute` is not looked
at. -/
def templateFile (env : Env) (d : GoMap) (cx : Context) (w : World) : Context × World :=
  let w1 := w.record (.parseFiles "templates/openvpn.tmpl")
  match env.parseFiles "templates/openvpn.tmpl" with
  | .error _ => (cx.AbortWithStatus 500, w1)
  | .ok t =>
    let w2 := w1.record (.execute d)
    let fi := (env.execute t d).1
    writeVPNFile env fi cx w2

/-- `openVPNHandler` of server.go. -/
def openVPNHandler (env : Env) (r : openvpnAuthd) (cx : Context) (w : World) :
    Go Context × World :=
  -- step: grab the authentication headers
  let emailAddress := Header.Get env cx.Header r.config.AuthHeader
  if emailAddress = "" then (.ret (cx.AbortWithStatus 403), w)
  else
    -- step: generate a certificate for them
    match vault.GetCertificate env emailAddress r.config.VaultPath r.config.SessionDuration w with
    | (.panic m, w1) => (.panic m, w1)
    | (.ret (_, some _), w1) => (.ret (cx.AbortWithStatus 500), w1)
    | (.ret (none, none), w1) =>
      (.panic "runtime error: invalid memory address or nil pointer dereference", w1)
    | (.ret (some cert, none), w1) =>
      -- step: are we loading a openvpn tls auth file
      if r.config.OpenVPNtlsAuth ≠ "" then
        let w2 := w1.record (.readFile r.config.OpenVPNtlsAuth)
        match env.readFile r.config.OpenVPNtlsAuth with
        | .error _ => (.ret cx, w2)
        | .ok tlsAuth =>
          let file : GoMap := [
            ("openvpn_servers", r.config.servers),
            ("ttl", .duration cert.TTL),
            ("expires_in", .time (env.now.Add cert.TTL)),
            ("certificate", .str cert.Certificate),
            ("private_key", .str cert.PrivateKey),
            ("issuing_ca", .str cert.IssuingCA),
            ("email", .str emailAddress),
            ("tlsauth", .str tlsAuth)]
          match templateFile env file cx w2 with
          | (cx1, w3) => (.ret cx1, w3)
      else
        let file : GoMap := [
          ("openvpn_servers", r.config.servers),
          ("ttl", .duration cert.TTL),
          ("expires_in", .time (env.now.Add cert.TTL)),
          ("certificate", .str cert.Certificate),
          ("private_key", .str cert.PrivateKey),
          ("issuing_ca", .str cert.IssuingCA),
          ("email", .str emailAddress)]
        match templateFile env file cx w1 with
        | (cx1, w3) => (.ret cx1, w3)

/-- `healthHandler` of server.go. -/
def healthHandler (env : Env) (r : openvpnAuthd) (cx : Context) (w : World) : Context × World :=
  match GetVaultHealth env r w with
  | ((_, some err), w1) => (cx.Text 500 err, w1)
  | ((res, none), w1) => (cx.JSON 200 { res with AppVersion := env.Version }, w1)

/-! ## Scenarios

Concrete environments on which the handlers are evaluated.  An environment
lists the outcome of each outside call the scenario makes. -/

/-- One hour, in nanoseconds. -/
def oneHour : Duration := 3600000000000

/-- A secret as the issuance endpoint returns it, with the given CA chain. -/
def issued (chain : List GoValue) : Secret :=
  ⟨[("certificate", .str "CERT"), ("private_key", .str "KEY"), ("ca_chain", .slice chain)]⟩

/-- The error texts of `encoding/json` in the scenarios: a body that ends too
early, and a value that does not fit its target. -/
def errorText : json.Failure → GoError
  | .invalid => "unexpected end of JSON input"
  | .mismatch value "" =>
    "json: cannot unmarshal " ++ value ++ " into Go value of type main.HealthResponse"
  | .mismatch value field =>
    "json: cannot unmarshal " ++ value ++ " into Go struct field HealthResponse." ++ field ++
      " of type " ++
      (match json.fields.find? (fun f => f.name == field) with
        | some f => f.goType
        | none => "")

/-- An environment in which every outside call succeeds: the backend answers
the issuance write with `secret`, the template renders to `"profile"`, the
health body is the empty JSON object.  The session duration of the scenarios
is one hour, printed `1h0m0s`; no request of the scenarios carries a range or
a precondition. -/
def calm (secret : Secret) : Env where
  Version := "v0.1.0"
  now := ⟨1500000000000000000⟩
  canonicalMIMEHeaderKey := id
  durationString := fun _ => "1h0m0s"
  logicalWrite := fun _ _ => (some secret, none)
  readFile := fun _ => .ok "TLS-AUTH-KEY"
  parseFiles := fun _ => .ok ⟨"template"⟩
  execute := fun _ _ => ("profile", none)
  tempDir := fun _ _ => .ok "./static/042"
  tempFile := fun dir _ => .ok (dir ++ "/certfile7")
  writeString := fun _ _ => none
  closeFile := fun _ => none
  httpGet := fun _ => .ok ⟨"\x7b\x7d", none⟩
  intSize := 64
  jsonErrorText := errorText
  serveContent := fun _ path content => (200, .file path content)

/-- The configuration of the scenarios. -/
def sampleConfig (vaultPath tlsAuth : String) : AuthConfig where
  VaultURL := "https://vault.example.com"
  AuthHeader := "X-Auth-Email"
  VaultPath := vaultPath
  SessionDuration := oneHour
  OpenVPNtlsAuth := tlsAuth
  servers := .slice [.str "vpn.example.com:1194"]

/-- The empty world: no files, no calls made. -/
def World.initial : World := ⟨[], []⟩

/-- A request carrying the identity header. -/
def signedIn : Context := Context.fresh [("X-Auth-Email", ["alice@example.com"])]

/-- A request without the identity header. -/
def anonymous : Context := Context.fresh [("Accept", ["*/*"])]

/-- The service of the scenarios: issuance path `pki/issue/openvpn`, and the
given tunnel-auth file. -/
def service (tlsAuth : String) : openvpnAuthd := ⟨sampleConfig "pki/issue/openvpn" tlsAuth⟩

/-- A well-formed issuance response with a chain of two. -/
def twoChain : Secret := issued [.str "ISSUING-CA", .str "ROOT-CA"]

/-- The process has no file descriptor left when the temporary file is to be
created: `ioutil.TempDir` succeeds, `ioutil.TempFile` fails. -/
def noDescriptors : Env :=
  { calm twoChain with
    tempFile := fun dir _ => .error ("open " ++ dir ++ "/certfile7: too many open files") }

/-- The tunnel-auth file cannot be read. -/
def unreadableKey : Env :=
  { calm twoChain with
    readFile := fun path => .error ("open " ++ path ++ ": permission denied") }

/-- The template parses, and its execution stops with an error after part of
the document has reached the buffer. -/
def brokenTemplate : Env :=
  { calm twoChain with
    execute := fun _ _ =>
      ("client\nremote ", some "template: openvpn.tmpl:2:9: error calling index: index out of range: 3") }

/-- The backend announces a longer health body than it sends: the read ends
with an error after a complete JSON object has arrived. -/
def truncatedBody : Env :=
  { calm twoChain with
    httpGet := fun _ => .ok ⟨"\x7b\x7d", some "unexpected EOF"⟩ }

/-- A health body of a sealed standby backend. -/
def healthBody : String :=
  "\x7b\"initialized\":true,\"sealed\":true,\"standby\":true," ++
  "\"replication_performance_mode\":\"disabled\",\"replication_dr_mode\":\"disabled\"," ++
  "\"server_time_utc\":1500000000,\"version\":\"1.2.3\",\"cluster_id\":\"c-1\"," ++
  "\"cluster_name\":\"vault-cluster\",\"app_version\":\"backend\"\x7d"

/-- The backend reports its health in a body that carries an `app_version`
of its own. -/
def reporting : Env :=
  { calm twoChain with
    httpGet := fun _ => .ok ⟨healthBody, none⟩ }

/-- The document `healthBody` spells. -/
def healthDocument : json.Value :=
  .object [
    ("initialized", .bool true), ("sealed", .bool true), ("standby", .bool true),
    ("replication_performance_mode", .string "disabled"),
    ("replication_dr_mode", .string "disabled"),
    ("server_time_utc", .number "1500000000"), ("version", .string "1.2.3"),
    ("cluster_id", .string "c-1"), ("cluster_name", .string "vault-cluster"),
    ("app_version", .string "backend")]

/-- Valid JSON in which `sealed` is a string. -/
def mistypedBody : String := "\x7b\"sealed\":\"no\"\x7d"

/-- The backend answers the probe with `mistypedBody`. -/
def mistyped : Env :=
  { calm twoChain with
    httpGet := fun _ => .ok ⟨mistypedBody, none⟩ }

/-- The field maps handed to `t.Execute`, in the order of the calls. -/
def executed : List Event → List GoMap
  | [] => []
  | .execute d :: es => d :: executed es
  | _ :: es => executed es

/-! ## Properties of GetCertificate -/

/-- The issuance write: `GetCertificate` logs exactly one backend write, to
`fmt.Sprintf path`, carrying `common_name` and `ttl`. -/
theorem GetCertificate_log (env : Env) (subject path : String) (ttl : Duration) (w : World) :
    (vault.GetCertificate env subject path ttl w).2 =
      w.record (.vaultWrite (fmt.Sprintf path)
        [("common_name", .str subject), ("ttl", .str (env.durationString ttl))]) := by
  unfold vault.GetCertificate
  simp only
  split <;> rfl

/-- A write error is returned as it is. -/
theorem GetCertificate_write_error (env : Env) (subject path : String) (ttl : Duration)
    (w : World) (s : Option Secret) (err : GoError)
    (h : env.logicalWrite (fmt.Sprintf path)
      [("common_name", .str subject), ("ttl", .str (env.durationString ttl))] = (s, some err)) :
    (vault.GetCertificate env subject path ttl w).1 = .ret (none, some err) := by
  unfold vault.GetCertificate
  simp only [h]

/-- A chain of fewer than two entries, or no chain at all, makes
`GetCertificate` panic. -/
theorem GetCertificate_short_chain (env : Env) (subject path : String) (ttl : Duration)
    (w : World) (secret : Secret)
    (hw : env.logicalWrite (fmt.Sprintf path)
      [("common_name", .str subject), ("ttl", .str (env.durationString ttl))] = (some secret, none))
    (hc : secret.Data.lookup "ca_chain" = none ∨
      ∃ xs, secret.Data.lookup "ca_chain" = some (.slice xs) ∧ xs.length < 2) :
    (vault.GetCertificate env subject path ttl w).1.isPanic = true := by
  unfold vault.GetCertificate
  simp only [hw]
  rcases hc with hc | ⟨xs, hc, hlen⟩
  · simp [hc, assertSlice, Go.bind, Go.isPanic]
  · rw [hc]
    match xs, hlen with
    | [], _ => simp [assertSlice, index, Go.bind, Go.isPanic]
    | [x], _ =>
      cases x <;> simp [assertSlice, assertString, index, Go.bind, Go.isPanic]

/-- The chain that reaches the certificate is the first two entries joined by
a newline, whatever follows them. -/
theorem GetCertificate_first_two (env : Env) (subject path : String) (ttl : Duration)
    (w : World) (secret : Secret) (e0 e1 certificate privateKey : String) (more : List GoValue)
    (hw : env.logicalWrite (fmt.Sprintf path)
      [("common_name", .str subject), ("ttl", .str (env.durationString ttl))] = (some secret, none))
    (hc : secret.Data.lookup "ca_chain" = some (.slice (.str e0 :: .str e1 :: more)))
    (h1 : secret.Data.lookup "certificate" = some (.str certificate))
    (h2 : secret.Data.lookup "private_key" = some (.str privateKey)) :
    (vault.GetCertificate env subject path ttl w).1 =
      .ret (some ⟨certificate, privateKey, e0 ++ "\n" ++ e1, ttl, subject⟩, none) := by
  unfold vault.GetCertificate
  simp only [hw, hc, h1, h2]
  rfl

/-! ## Properties of the model of `fmt.Sprintf` -/

namespace fmt

/-- `parsenum` returns a part of its input. -/
theorem parsenum_length (l : List Char) : ∀ (n : Nat) (b : Bool),
    (parsenum l n b).2.2.length ≤ l.length := by
  induction l with
  | nil => intro n b; simp [parsenum]
  | cons c cs ih =>
    intro n b
    unfold parsenum
    split
    · split
      · simp
      · exact Nat.le_succ_of_le (ih _ _)
    · simp

/-- What `span` leaves unread is no longer than the input. -/
theorem span_snd_length (p : Char → Bool) (l : List Char) :
    (l.span p).2.length ≤ l.length := by
  rw [List.span_eq_take_drop]
  exact (List.dropWhile_sublist p).length_le

/-- `argNumber` returns a part of its input. -/
theorem argNumber_length (s : List Char) : (argNumber s).1.length ≤ s.length := by
  unfold argNumber
  split
  · rename_i t
    split
    · simp
    · have hsp := span_snd_length (fun c => c != ']') t
      split
      · rename_i digits rest heq
        rw [heq] at hsp
        simp only [List.length_cons] at hsp ⊢
        omega
      · simp
  · simp

/-- `width` returns a part of its input. -/
theorem width_length (s : List Char) (a b : Bool) : (width s a b).1.length ≤ s.length := by
  unfold width
  split
  · simp
  · have := parsenum_length s 0 false
    simpa using this

/-- `precision` returns a part of its input. -/
theorem precision_length (s : List Char) (a b : Bool) :
    (precision s a b).1.length ≤ s.length := by
  unfold precision
  split
  · rename_i c t
    have h1 := argNumber_length (c :: t)
    split
    rename_i t1 found badIndex heq
    rw [heq] at h1
    simp only at h1
    split
    · simp only [List.length_cons] at h1 ⊢
      omega
    · have h2 := parsenum_length t1 0 false
      exact Nat.le_succ_of_le (Nat.le_trans h2 h1)
  · simp

/-- A directive that has a verb consumes at least that verb. -/
theorem directive_rest (r0 out rest : List Char) (h : directive r0 = (out, some rest)) :
    rest.length < r0.length := by
  unfold directive at h
  simp only at h
  have h1 : (r0.dropWhile isFlag).length ≤ r0.length := (List.dropWhile_sublist _).length_le
  have h2 := argNumber_length (r0.dropWhile isFlag)
  have h3 := width_length (argNumber (r0.dropWhile isFlag)).1
    (argNumber (r0.dropWhile isFlag)).2.1 (argNumber (r0.dropWhile isFlag)).2.2
  generalize width (argNumber (r0.dropWhile isFlag)).1
    (argNumber (r0.dropWhile isFlag)).2.1 (argNumber (r0.dropWhile isFlag)).2.2 = w at h h3
  have h4 := precision_length w.1 w.2.2.1 w.2.2.2
  generalize precision w.1 w.2.2.1 w.2.2.2 = q at h h4
  have h5 := argNumber_length q.1
  split at h
  · simp at h
  · rename_i verb tl heq
    simp only [Prod.mk.injEq, Option.some.injEq] at h
    obtain ⟨-, rfl⟩ := h
    by_cases hq : q.2.2.1 = true
    · simp only [hq, if_true] at heq
      have : tl.length + 1 = q.1.length := by rw [heq]; rfl
      omega
    · simp only [hq] at heq
      have : tl.length + 1 = (argNumber q.1).1.length := by
        simp only [Bool.false_eq_true, if_false] at heq
        rw [heq]; rfl
      omega

/-- The bound on the number of directives is never reached: any bound above
the length of the format gives the same output. -/
theorem doPrintf_fuel : ∀ (fuel fuel' : Nat) (l : List Char),
    l.length < fuel → l.length < fuel' → doPrintf fuel l = doPrintf fuel' l := by
  intro fuel
  induction fuel with
  | zero => intro fuel' l h; omega
  | succ n ih =>
    intro fuel' l h h'
    cases fuel' with
    | zero => omega
    | succ m =>
      unfold doPrintf
      have hsp := span_snd_length (fun c => c != '%') l
      split
      · rfl
      · rename_i lit c r0 heq
        rw [heq] at hsp
        simp only [List.length_cons] at hsp
        split
        · rfl
        · rename_i out rest hd
          have := directive_rest r0 out rest hd
          rw [ih m rest (by omega) (by omega)]

end fmt

/-- A format string without a percent sign is returned as it is. -/
theorem Sprintf_plain (s : String) (h : '%' ∉ s.toList) : fmt.Sprintf s = s := by
  unfold fmt.Sprintf fmt.doPrintf
  have hs : s.toList.span (fun c => c != '%') = (s.toList, []) := by
    rw [List.span_eq_take_drop]
    have hall : ∀ c ∈ s.toList, (c != '%') = true := by
      intro c hc
      simp only [bne_iff_ne, ne_eq]
      rintro rfl
      exact h hc
    simp [List.takeWhile_eq_self_iff, List.dropWhile_eq_nil_iff]
    exact fun c hc => by simpa using hall c hc
  simp only [hs]
  rfl

/-- C2 (defect in the code): a backend response whose `ca_chain` has one
entry makes `GetCertificate` panic with an index out of range; no error value
is returned. -/
theorem GetCertificate_single_entry_chain_panics :
    (vault.GetCertificate (calm (issued [.str "ROOT-CA"])) "alice@example.com"
      "pki/issue/openvpn" oneHour World.initial).1 =
      .panic "runtime error: index out of range" := rfl

/-- C3 (defect in the code): for a chain of three entries the certificate
carries the first two joined by a newline; the third entry is left out. -/
theorem GetCertificate_three_entry_chain_drops_third :
    (vault.GetCertificate (calm (issued [.str "ISSUING-CA", .str "INTERMEDIATE-CA", .str "ROOT-CA"]))
      "alice@example.com" "pki/issue/openvpn" oneHour World.initial).1 =
      .ret (some ⟨"CERT", "KEY", "ISSUING-CA\nINTERMEDIATE-CA", oneHour, "alice@example.com"⟩,
        none) := rfl

/-- C7 (defect in the code): the issuance path goes through `fmt.Sprintf` as
a format string, so the single backend write for the path
`pki/issue/vpn%2Fclient` is addressed to `pki/issue/vpn%!F(MISSING)client`. -/
theorem GetCertificate_percent_path_rewritten :
    (vault.GetCertificate (calm twoChain) "alice@example.com" "pki/issue/vpn%2Fclient"
      oneHour World.initial).2.log =
      [.vaultWrite "pki/issue/vpn%!F(MISSING)client"
        [("common_name", .str "alice@example.com"), ("ttl", .str "1h0m0s")]] := rfl

/-! ## Properties of openVPNHandler -/

/-- C1: when the identity header is absent, or its value is the empty string,
`openVPNHandler` answers 403 and leaves the world as it was: nothing is added
to the log of outside calls (no backend write, no template call, no file
creation) and the filesystem is unchanged. -/
theorem openVPNHandler_forbidden (env : Env) (r : openvpnAuthd) (cx : Context) (w : World)
    (h : cx.Header.lookup (env.canonicalMIMEHeaderKey r.config.AuthHeader) = none ∨
      ∃ vs, cx.Header.lookup (env.canonicalMIMEHeaderKey r.config.AuthHeader) = some ("" :: vs)) :
    openVPNHandler env r cx w = (.ret (cx.AbortWithStatus 403), w) ∧
      (cx.AbortWithStatus 403).status = 403 ∧ (cx.AbortWithStatus 403).body = cx.body := by
  have hget : Header.Get env cx.Header r.config.AuthHeader = "" := by
    unfold Header.Get
    rcases h with h | ⟨vs, h⟩ <;> rw [h]
  unfold openVPNHandler
  simp only [hget]
  exact ⟨rfl, rfl, rfl⟩

/-- Witness of C1: a request without the header, on a backend that would
issue. -/
theorem openVPNHandler_forbidden_witness :
    anonymous.Header.lookup ((calm twoChain).canonicalMIMEHeaderKey (service "").config.AuthHeader)
        = none ∧
      openVPNHandler (calm twoChain) (service "") anonymous World.initial =
        (.ret (anonymous.AbortWithStatus 403), World.initial) ∧
      (anonymous.AbortWithStatus 403).status = 403 ∧
      (anonymous.AbortWithStatus 403).body = anonymous.body :=
  ⟨rfl, openVPNHandler_forbidden (calm twoChain) (service "") anonymous World.initial (Or.inl rfl)⟩

/-! ## Properties of writeVPNFile -/

/-- `FS.present` is false exactly when no entry has the path. -/
theorem present_false_iff (fs : FS) (p : String) :
    fs.present p = false ↔ ∀ e ∈ fs, e.path ≠ p := by
  simp [FS.present]

/-- `FS.occupied` is false exactly when no entry lies in the directory. -/
theorem occupied_false_iff (fs : FS) (p : String) :
    fs.occupied p = false ↔ ∀ e ∈ fs, e.parent ≠ p := by
  simp [FS.occupied]

/-- A search by path skips a part of the filesystem that has no such path. -/
theorem find_skip (fs rest : FS) (p : String) (h : ∀ e ∈ fs, e.path ≠ p) :
    (fs ++ rest).find? (fun x => x.path == p) = rest.find? (fun x => x.path == p) := by
  induction fs with
  | nil => rfl
  | cons a t ih =>
    have ha : (a.path == p) = false := by simpa using h a (List.mem_cons_self _ _)
    simp only [List.cons_append, List.find?_cons, ha]
    exact ih (fun e he => h e (List.mem_cons_of_mem _ he))

/-- Removing a path that does not occur changes nothing. -/
theorem filter_fresh (fs : FS) (p : String) (h : ∀ e ∈ fs, e.path ≠ p) :
    fs.filter (fun x => x.path != p) = fs := by
  rw [List.filter_eq_self]
  intro e he
  simpa using h e he

/-- Writing to a path that does not occur changes nothing. -/
theorem map_fresh (fs : FS) (p : String) (h : ∀ e ∈ fs, e.path ≠ p) (s : String) :
    fs.map (fun e => if e.path == p then { e with content := s } else e) = fs := by
  conv_rhs => rw [← List.map_id fs]
  apply List.map_congr_left
  intro e he
  have : (e.path == p) = false := by simpa using h e he
  simp [this]

/-- A successful `os.Remove` deletes the entries at the path. -/
theorem remove_fs (w : World) (name : String) (e : Entry)
    (hfind : w.fs.find? (fun x => x.path == name) = some e)
    (hok : (e.isDir && w.fs.occupied name) = false) :
    (os.Remove w name).1.fs = w.fs.filter (fun x => x.path != name) := by
  unfold os.Remove
  simp only [hfind, hok]
  rfl

/-- Serving a file changes the world by one log entry only. -/
theorem File_world (env : Env) (cx : Context) (w : World) (path : String) :
    (Context.File env cx w path).2 = w.record (.serveFile path) := by
  unfold Context.File
  simp only
  split
  · split <;> rfl
  · rfl

/-- The two deferred removals, file first and directory second, undo both
creations. -/
theorem deferred_restores (v : World) (fs : FS) (dir name content : String)
    (hfs : v.fs = fs ++ [Entry.mk dir "./static/" true "", Entry.mk name dir false content])
    (h1 : fs.present dir = false) (h2 : fs.present name = false)
    (h3 : fs.occupied dir = false) (h4 : name ≠ dir) (h5 : dir ≠ "./static/") :
    (os.Remove (os.Remove v name).1 dir).1.fs = fs := by
  rw [present_false_iff] at h1 h2
  rw [occupied_false_iff] at h3
  have hd : (dir == name) = false := by simpa using (Ne.symm h4)
  have step1 : (os.Remove v name).1.fs = fs ++ [Entry.mk dir "./static/" true ""] := by
    rw [remove_fs v name (Entry.mk name dir false content)]
    · simp [hfs, List.filter_append, filter_fresh fs name h2, List.filter_cons, Ne.symm h4]
    · rw [hfs, find_skip fs _ name h2]
      simp [List.find?_cons, hd]
    · rfl
  have hocc : FS.occupied (fs ++ [Entry.mk dir "./static/" true ""]) dir = false := by
    rw [occupied_false_iff]
    intro e he
    rcases List.mem_append.mp he with he | he
    · exact h3 e he
    · simp at he
      subst he
      exact fun h => h5 h.symm
  rw [remove_fs _ dir (Entry.mk dir "./static/" true "")]
  · simp [step1, List.filter_append, filter_fresh fs dir h1, List.filter_cons]
  · rw [step1, find_skip fs _ dir h1]
    simp [List.find?_cons]
  · rw [step1, hocc]
    rfl

/-- On the exit paths after the temporary file has been created (write
failure, close failure, success) `writeVPNFile` leaves the filesystem as it
found it: the temporary file and its directory are gone. -/
theorem writeVPNFile_cleans_after_creation (env : Env) (d : String) (cx : Context) (w : World)
    (dir name : String)
    (hdir : env.tempDir "./static/" "" = .ok dir)
    (hfile : env.tempFile dir "certfile" = .ok name)
    (h1 : w.fs.present dir = false) (h2 : w.fs.present name = false)
    (h3 : w.fs.occupied dir = false) (h4 : name ≠ dir) (h5 : dir ≠ "./static/") :
    (writeVPNFile env d cx w).2.fs = w.fs := by
  have hmap : ∀ s : String,
      (w.fs ++ [Entry.mk dir "./static/" true "", Entry.mk name dir false ""]).map
        (fun e => if e.path == name then { e with content := s } else e) =
      w.fs ++ [Entry.mk dir "./static/" true "", Entry.mk name dir false s] := by
    intro s
    rw [List.map_append, map_fresh w.fs name ((present_false_iff _ _).mp h2) s]
    simp [Ne.symm h4]
  unfold writeVPNFile
  simp only [hdir, hfile]
  split
  · rename_i written _ _
    refine deferred_restores _ w.fs dir name written ?_ h1 h2 h3 h4 h5
    simp only [World.record, List.append_assoc, List.singleton_append]
    exact hmap written
  · split
    · refine deferred_restores _ w.fs dir name d ?_ h1 h2 h3 h4 h5
      simp only [World.record, List.append_assoc, List.singleton_append]
      exact hmap d
    · refine deferred_restores _ w.fs dir name d ?_ h1 h2 h3 h4 h5
      rw [File_world]
      simp only [World.record, List.append_assoc, List.singleton_append]
      exact hmap d

/-- C4 (defect in the code): when `ioutil.TempFile` fails after
`ioutil.TempDir` has succeeded, `writeVPNFile` returns before the removals are
deferred: it answers 500, calls `os.Remove` not once, and the temporary
directory still exists. -/
theorem writeVPNFile_tempfile_failure_leaves_directory :
    (writeVPNFile noDescriptors "profile" signedIn World.initial).2.fs.present "./static/042"
        = true ∧
      (writeVPNFile noDescriptors "profile" signedIn World.initial).2.log =
        [.tempDir "./static/" "", .tempFile "./static/042" "certfile"] ∧
      (writeVPNFile noDescriptors "profile" signedIn World.initial).1.status = 500 :=
  ⟨rfl, rfl, rfl⟩

/-! ## Failure paths of the issuance handler -/

/-- A backend error ends the request with 500 and nothing rendered. -/
theorem openVPNHandler_backend_error (env : Env) (r : openvpnAuthd) (cx : Context) (w : World)
    (s : String) (x : Option Secret) (err : GoError)
    (hid : Header.Get env cx.Header r.config.AuthHeader = s) (hs : s ≠ "")
    (hw : env.logicalWrite (fmt.Sprintf r.config.VaultPath)
      [("common_name", .str s), ("ttl", .str (env.durationString r.config.SessionDuration))]
        = (x, some err)) :
    openVPNHandler env r cx w =
      (.ret (cx.AbortWithStatus 500),
        w.record (.vaultWrite (fmt.Sprintf r.config.VaultPath)
          [("common_name", .str s),
           ("ttl", .str (env.durationString r.config.SessionDuration))])) := by
  have hget : vault.GetCertificate env s r.config.VaultPath r.config.SessionDuration w =
      (.ret (none, some err),
        w.record (.vaultWrite (fmt.Sprintf r.config.VaultPath)
          [("common_name", .str s),
           ("ttl", .str (env.durationString r.config.SessionDuration))])) :=
    Prod.ext (GetCertificate_write_error env s _ _ w x err hw) (GetCertificate_log env s _ _ w)
  unfold openVPNHandler
  simp only [hid, hs, if_false, hget]

/-- A storage failure in `writeVPNFile` answers 500 with the body untouched. -/
theorem writeVPNFile_failure (env : Env) (d : String) (cx : Context) (w : World)
    (h : (∃ e, env.tempDir "./static/" "" = .error e) ∨
      ∃ dir, env.tempDir "./static/" "" = .ok dir ∧
        ((∃ e, env.tempFile dir "certfile" = .error e) ∨
          ∃ name, env.tempFile dir "certfile" = .ok name ∧
            ((∃ p, env.writeString name d = some p) ∨
              (env.writeString name d = none ∧ ∃ e, env.closeFile name = some e)))) :
    (writeVPNFile env d cx w).1 = cx.AbortWithStatus 500 := by
  unfold writeVPNFile
  rcases h with ⟨e, h⟩ | ⟨dir, hdir, h⟩
  · simp only [h]
  · simp only [hdir]
    rcases h with ⟨e, h⟩ | ⟨name, hname, h⟩
    · simp only [h]
    · simp only [hname]
      rcases h with ⟨⟨written, e⟩, h⟩ | ⟨hw, e, hc⟩
      · simp only [h]
      · simp only [hw, hc]

/-- C5 (defect in the code): when the tunnel-auth file cannot be read,
`openVPNHandler` returns without setting a status: the response keeps gin's
status 200, is not aborted and has no body. -/
theorem openVPNHandler_unreadable_tlsauth_keeps_200 :
    ∃ cx : Context,
      (openVPNHandler unreadableKey (service "/etc/openvpn/ta.key") signedIn World.initial).1 =
        .ret cx ∧
      cx.status = 200 ∧ cx.aborted = false ∧ cx.body.isFile = false :=
  ⟨signedIn, rfl, rfl, rfl, rfl⟩

/-- When `t.Execute` returns an error, `templateFile` goes on to
`writeVPNFile` with what reached the buffer. -/
theorem templateFile_ignores_execute_error (env : Env) (d : GoMap) (cx : Context) (w : World)
    (t : Template) (out : String) (err : GoError)
    (hparse : env.parseFiles "templates/openvpn.tmpl" = .ok t)
    (hexec : env.execute t d = (out, some err)) :
    templateFile env d cx w =
      writeVPNFile env out cx
        ((w.record (.parseFiles "templates/openvpn.tmpl")).record (.execute d)) := by
  unfold templateFile
  simp only [hparse, hexec]

/-- A template that cannot be read or parsed stops `templateFile` with 500
before anything is rendered or written. -/
theorem templateFile_parse_error (env : Env) (d : GoMap) (cx : Context) (w : World)
    (err : GoError) (hparse : env.parseFiles "templates/openvpn.tmpl" = .error err) :
    templateFile env d cx w =
      (cx.AbortWithStatus 500, w.record (.parseFiles "templates/openvpn.tmpl")) := by
  unfold templateFile
  simp only [hparse]

/-- C6 (defect in the code): when executing the template fails part of the
way, `templateFile` still calls `writeVPNFile`: a temporary file is created
and the unfinished document is served with status 200. -/
theorem templateFile_execute_error_still_delivers :
    (templateFile brokenTemplate [("email", .str "alice@example.com")] signedIn
        World.initial).1.body = .file "./static/042/certfile7" "client\nremote " ∧
      (templateFile brokenTemplate [("email", .str "alice@example.com")] signedIn
        World.initial).1.status = 200 ∧
      (templateFile brokenTemplate [("email", .str "alice@example.com")] signedIn
        World.initial).2.log =
        [.parseFiles "templates/openvpn.tmpl",
         .execute [("email", .str "alice@example.com")],
         .tempDir "./static/" "",
         .tempFile "./static/042" "certfile",
         .writeString "./static/042/certfile7" "client\nremote ",
         .closeFile "./static/042/certfile7",
         .serveFile "./static/042/certfile7",
         .remove "./static/042/certfile7",
         .remove "./static/042"] :=
  ⟨rfl, rfl, rfl⟩

/-! ## The field map of a successful issuance -/

/-- `executed` distributes over concatenation of logs. -/
theorem executed_append (a b : List Event) : executed (a ++ b) = executed a ++ executed b := by
  induction a with
  | nil => rfl
  | cons e t ih => cases e <;> simp [executed, ih]

/-- `os.Remove` adds one `remove` call to the log. -/
theorem remove_log (w : World) (name : String) :
    (os.Remove w name).1.log = w.log ++ [.remove name] := by
  unfold os.Remove
  simp only
  split
  · rfl
  · split <;> rfl

/-- `writeVPNFile` never executes a template. -/
theorem writeVPNFile_executed (env : Env) (d : String) (cx : Context) (w : World) :
    executed (writeVPNFile env d cx w).2.log = executed w.log := by
  unfold writeVPNFile
  simp only
  split
  · simp [World.record, executed_append, executed]
  · split
    · simp [World.record, executed_append, executed]
    · split
      · simp [World.record, executed_append, executed, remove_log]
      · split
        · simp [World.record, executed_append, executed, remove_log]
        · simp only [remove_log, File_world]
          simp [World.record, executed_append, executed]

/-- With a template that parses, `templateFile` executes it once, on the map
it was given. -/
theorem templateFile_executed (env : Env) (d : GoMap) (cx : Context) (w : World) (t : Template)
    (hparse : env.parseFiles "templates/openvpn.tmpl" = .ok t) :
    executed (templateFile env d cx w).2.log = executed w.log ++ [d] := by
  unfold templateFile
  simp only [hparse, writeVPNFile_executed]
  simp [World.record, executed_append, executed]

/-- The result and the log of `GetCertificate` on a well-formed response. -/
theorem GetCertificate_issues (env : Env) (subject path : String) (ttl : Duration)
    (w : World) (secret : Secret) (e0 e1 certificate privateKey : String) (more : List GoValue)
    (hw : env.logicalWrite (fmt.Sprintf path)
      [("common_name", .str subject), ("ttl", .str (env.durationString ttl))] = (some secret, none))
    (hc : secret.Data.lookup "ca_chain" = some (.slice (.str e0 :: .str e1 :: more)))
    (h1 : secret.Data.lookup "certificate" = some (.str certificate))
    (h2 : secret.Data.lookup "private_key" = some (.str privateKey)) :
    vault.GetCertificate env subject path ttl w =
      (.ret (some ⟨certificate, privateKey, e0 ++ "\n" ++ e1, ttl, subject⟩, none),
        w.record (.vaultWrite (fmt.Sprintf path)
          [("common_name", .str subject), ("ttl", .str (env.durationString ttl))])) :=
  Prod.ext (GetCertificate_first_two env subject path ttl w secret e0 e1 certificate privateKey
    more hw hc h1 h2) (GetCertificate_log env subject path ttl w)

/-- C10: on a successful issuance for identity `s` (non-empty header value,
a backend response with string `certificate` and `private_key` and a chain of
at least two strings, a readable tunnel-auth file when one is configured, a
template that parses) `openVPNHandler` executes the template exactly once, on
the map with `openvpn_servers` the configured servers, `ttl` the session
duration, `expires_in` now plus that duration, `certificate` and `private_key`
those of the backend response, `issuing_ca` the `IssuingCA` of the certificate
`GetCertificate` returned, `email` the identity, and `tlsauth`, the content of
the tunnel-auth file, exactly when the configured path is non-empty; the map
has no other key. -/
theorem openVPNHandler_field_map (env : Env) (r : openvpnAuthd) (cx : Context) (w : World)
    (s : String) (secret : Secret) (certificate privateKey e0 e1 : String)
    (more : List GoValue) (contents : String) (t : Template)
    (hid : Header.Get env cx.Header r.config.AuthHeader = s) (hs : s ≠ "")
    (hw : env.logicalWrite (fmt.Sprintf r.config.VaultPath)
      [("common_name", .str s), ("ttl", .str (env.durationString r.config.SessionDuration))]
        = (some secret, none))
    (hc : secret.Data.lookup "ca_chain" = some (.slice (.str e0 :: .str e1 :: more)))
    (h1 : secret.Data.lookup "certificate" = some (.str certificate))
    (h2 : secret.Data.lookup "private_key" = some (.str privateKey))
    (htls : r.config.OpenVPNtlsAuth ≠ "" → env.readFile r.config.OpenVPNtlsAuth = .ok contents)
    (hparse : env.parseFiles "templates/openvpn.tmpl" = .ok t) :
    ∃ cert : Certificate,
      (vault.GetCertificate env s r.config.VaultPath r.config.SessionDuration w).1 =
        .ret (some cert, none) ∧
      executed (openVPNHandler env r cx w).2.log = executed w.log ++
        [[("openvpn_servers", r.config.servers),
          ("ttl", .duration r.config.SessionDuration),
          ("expires_in", .time ⟨env.now.ns + r.config.SessionDuration⟩),
          ("certificate", .str certificate),
          ("private_key", .str privateKey),
          ("issuing_ca", .str cert.IssuingCA),
          ("email", .str s)] ++
          (if r.config.OpenVPNtlsAuth ≠ "" then [("tlsauth", .str contents)] else [])] := by
  have hget := GetCertificate_issues env s r.config.VaultPath r.config.SessionDuration w secret
    e0 e1 certificate privateKey more hw hc h1 h2
  refine ⟨⟨certificate, privateKey, e0 ++ "\n" ++ e1, r.config.SessionDuration, s⟩, ?_, ?_⟩
  · rw [hget]
  · unfold openVPNHandler
    simp only [hid, hs, if_false, hget]
    by_cases hcfg : r.config.OpenVPNtlsAuth = ""
    · simp only [hcfg, ne_eq, not_true_eq_false, if_false, List.append_nil]
      rw [templateFile_executed env _ cx _ t hparse]
      simp [World.record, executed_append, executed, Time.Add]
    · simp only [ne_eq, hcfg, not_false_eq_true, if_true, htls hcfg]
      rw [templateFile_executed env _ cx _ t hparse]
      simp [World.record, executed_append, executed, Time.Add]

/-- Witness of C10: an issuance for alice with a configured tunnel-auth
file. -/
theorem openVPNHandler_field_map_witness :
    ∃ cert : Certificate,
      (vault.GetCertificate (calm twoChain) "alice@example.com" "pki/issue/openvpn" oneHour
        World.initial).1 = .ret (some cert, none) ∧
      executed (openVPNHandler (calm twoChain) (service "/etc/openvpn/ta.key") signedIn
        World.initial).2.log = [] ++
        [[("openvpn_servers", .slice [.str "vpn.example.com:1194"]),
          ("ttl", .duration oneHour),
          ("expires_in", .time ⟨1500000000000000000 + oneHour⟩),
          ("certificate", .str "CERT"),
          ("private_key", .str "KEY"),
          ("issuing_ca", .str cert.IssuingCA),
          ("email", .str "alice@example.com")] ++
          (if "/etc/openvpn/ta.key" ≠ "" then [("tlsauth", .str "TLS-AUTH-KEY")] else [])] :=
  openVPNHandler_field_map (calm twoChain) (service "/etc/openvpn/ta.key") signedIn World.initial
    "alice@example.com" twoChain "CERT" "KEY" "ISSUING-CA" "ROOT-CA" [] "TLS-AUTH-KEY" ⟨"template"⟩
    rfl (by decide) rfl rfl rfl rfl (fun _ => rfl) rfl

/-! ## Properties of the model of `json.Unmarshal` -/

namespace json

/-- Skipping white space returns a part of the input. -/
theorem skipSpace_length (l : List Char) : (skipSpace l).length ≤ l.length := by
  induction l with
  | nil => simp [skipSpace]
  | cons c cs ih =>
    unfold skipSpace
    split
    · exact Nat.le_succ_of_le ih
    · exact Nat.le_refl _

/-- A string literal consumes at least its closing quote; by induction on a
bound of the length. -/
theorem scanString_length_aux : ∀ (n : Nat) (l : List Char) (hi : Option Nat)
    (acc str r : List Char), l.length ≤ n →
    scanString l hi acc = some (str, r) → r.length < l.length := by
  intro n
  induction n with
  | zero =>
    intro l hi acc str r hl h
    have : l = [] := List.length_eq_zero.mp (Nat.le_zero.mp hl)
    subst this
    simp [scanString] at h
  | succ n ih =>
    intro l hi acc str r hl h
    unfold scanString at h
    split at h
    · simp at h
    · simp only [Option.some.injEq, Prod.mk.injEq] at h
      obtain ⟨-, rfl⟩ := h
      simp
    all_goals (repeat' split at h)
    all_goals first
      | simp at h
      | (simp only [List.length_cons] at hl ⊢
         have := ih _ _ _ _ _ (by omega) h
         omega)

/-- A string literal consumes at least its closing quote. -/
theorem scanString_length (l : List Char) (hi : Option Nat) (acc str r : List Char)
    (h : scanString l hi acc = some (str, r)) : r.length < l.length :=
  scanString_length_aux l.length l hi acc str r (Nat.le_refl _) h

/-- What `span` leaves is a part of the input. -/
theorem span_rest_length (p : Char → Bool) (l a b : List Char) (h : l.span p = (a, b)) :
    b.length ≤ l.length := by
  rw [List.span_eq_take_drop] at h
  simp only [Prod.mk.injEq] at h
  rw [← h.2]
  exact (List.dropWhile_sublist p).length_le

/-- The digits of an exponent return a part of the input. -/
theorem scanExponentDigits_length (lit rest x r : List Char)
    (h : scanExponentDigits lit rest = some (x, r)) : r.length ≤ rest.length := by
  unfold scanExponentDigits at h
  split at h
  · simp at h
  · rename_i ds r0 _ hsp
    simp only [Option.some.injEq, Prod.mk.injEq] at h
    obtain ⟨-, rfl⟩ := h
    exact span_rest_length _ _ _ _ hsp

/-- The sign and digits of an exponent return a part of the input. -/
theorem scanExponentSign_length (lit rest x r : List Char)
    (h : scanExponentSign lit rest = some (x, r)) : r.length ≤ rest.length := by
  unfold scanExponentSign at h
  split at h
  · exact Nat.le_succ_of_le (scanExponentDigits_length _ _ _ _ h)
  · exact Nat.le_succ_of_le (scanExponentDigits_length _ _ _ _ h)
  · exact scanExponentDigits_length _ _ _ _ h

/-- An exponent returns a part of the input. -/
theorem scanExponent_length (lit rest x r : List Char)
    (h : scanExponent lit rest = some (x, r)) : r.length ≤ rest.length := by
  unfold scanExponent at h
  split at h
  · exact Nat.le_succ_of_le (scanExponentSign_length _ _ _ _ h)
  · exact Nat.le_succ_of_le (scanExponentSign_length _ _ _ _ h)
  · simp only [Option.some.injEq, Prod.mk.injEq] at h
    obtain ⟨-, rfl⟩ := h
    exact Nat.le_refl _

/-- A fraction and exponent return a part of the input. -/
theorem scanFraction_length (lit rest x r : List Char)
    (h : scanFraction lit rest = some (x, r)) : r.length ≤ rest.length := by
  unfold scanFraction at h
  split at h
  · rename_i t
    split at h
    · simp at h
    · rename_i ds r0 _ hsp
      have h1 := span_rest_length _ _ _ _ hsp
      have h2 := scanExponent_length _ _ _ _ h
      simp only [List.length_cons]
      omega
  · exact scanExponent_length _ _ _ _ h

/-- The integer part consumes at least one digit. -/
theorem scanInteger_length (sign l x r : List Char)
    (h : scanInteger sign l = some (x, r)) : r.length < l.length := by
  unfold scanInteger at h
  split at h
  · have h1 := scanFraction_length _ _ _ _ h
    simp only [List.length_cons]
    omega
  · split at h
    · split at h
      rename_i ds r0 hsp
      have h1 := scanFraction_length _ _ _ _ h
      have h2 := span_rest_length _ _ _ _ hsp
      simp only [List.length_cons]
      omega
    · simp at h
  · simp at h

/-- A number consumes at least one character. -/
theorem scanNumber_length (l x r : List Char)
    (h : scanNumber l = some (x, r)) : r.length < l.length := by
  unfold scanNumber at h
  split at h
  · have := scanInteger_length _ _ _ _ h
    simp only [List.length_cons]
    omega
  · exact scanInteger_length _ _ _ _ h

/-- A scalar consumes at least one character. -/
theorem scanScalar_length (l : List Char) (v : Value) (r : List Char)
    (h : scanScalar l = some (v, r)) : r.length < l.length := by
  unfold scanScalar at h
  split at h
  · split at h
    · rename_i str r0 hs
      simp only [Option.some.injEq, Prod.mk.injEq] at h
      obtain ⟨-, rfl⟩ := h
      have := scanString_length _ _ _ _ _ hs
      simp only [List.length_cons]
      omega
    · simp at h
  · simp only [Option.some.injEq, Prod.mk.injEq] at h
    obtain ⟨-, rfl⟩ := h
    simp only [List.length_cons]
    omega
  · simp only [Option.some.injEq, Prod.mk.injEq] at h
    obtain ⟨-, rfl⟩ := h
    simp only [List.length_cons]
    omega
  · simp only [Option.some.injEq, Prod.mk.injEq] at h
    obtain ⟨-, rfl⟩ := h
    simp only [List.length_cons]
    omega
  · split at h
    · rename_i lit r0 hs
      simp only [Option.some.injEq, Prod.mk.injEq] at h
      obtain ⟨-, rfl⟩ := h
      exact scanNumber_length _ _ _ hs
    · simp at h

/-- A key and its colon consume at least one character. -/
theorem scanKey_length (l : List Char) (key : String) (r : List Char)
    (h : scanKey l = some (key, r)) : r.length < l.length := by
  unfold scanKey at h
  split at h
  · split at h
    · rename_i str r0 hs
      have h1 := scanString_length _ _ _ _ _ hs
      split at h
      · rename_i r1 hsp
        simp only [Option.some.injEq, Prod.mk.injEq] at h
        obtain ⟨-, rfl⟩ := h
        have h2 := skipSpace_length r0
        have h3 := skipSpace_length r1
        rw [hsp] at h2
        simp only [List.length_cons] at h2 ⊢
        omega
      · simp at h
    · simp at h
  · simp at h

/-- What `parse` returns is shorter than what it was given. -/
theorem parse_length : ∀ (fuel depth : Nat) (m : Mode) (l : List Char) (v : Value)
    (r : List Char), parse fuel depth m l = some (v, r) → r.length < l.length := by
  intro fuel
  induction fuel with
  | zero => intro depth m l v r h; unfold parse at h; simp at h
  | succ n ih =>
    intro depth m l v r h
    cases m with
    | value =>
      unfold parse at h
      split at h
      · rename_i t
        split at h
        · simp at h
        · have hs := skipSpace_length t
          split at h
          · rename_i r0 hsp
            simp only [Option.some.injEq, Prod.mk.injEq] at h
            obtain ⟨-, rfl⟩ := h
            rw [hsp] at hs
            simp only [List.length_cons] at hs ⊢
            omega
          · have := ih _ _ _ _ _ h
            simp only [List.length_cons]
            omega
      · rename_i t
        split at h
        · simp at h
        · have hs := skipSpace_length t
          split at h
          · rename_i r0 hsp
            simp only [Option.some.injEq, Prod.mk.injEq] at h
            obtain ⟨-, rfl⟩ := h
            rw [hsp] at hs
            simp only [List.length_cons] at hs ⊢
            omega
          · have := ih _ _ _ _ _ h
            simp only [List.length_cons]
            omega
      · exact scanScalar_length _ _ _ h
    | elements acc =>
      unfold parse at h
      split at h
      · simp at h
      · rename_i v0 r0 hv
        have h1 := ih _ _ _ _ _ hv
        have h2 := skipSpace_length r0
        split at h
        · rename_i r1 hsp
          have h3 := ih _ _ _ _ _ h
          have h4 := skipSpace_length r1
          rw [hsp] at h2
          simp only [List.length_cons] at h2
          omega
        · rename_i r1 hsp
          simp only [Option.some.injEq, Prod.mk.injEq] at h
          obtain ⟨-, rfl⟩ := h
          rw [hsp] at h2
          simp only [List.length_cons] at h2
          omega
        · simp at h
    | members acc =>
      unfold parse at h
      split at h
      · simp at h
      · rename_i key r1 hk
        have h0 := scanKey_length _ _ _ hk
        split at h
        · simp at h
        · rename_i v0 r2 hv
          have h1 := ih _ _ _ _ _ hv
          have h2 := skipSpace_length r2
          split at h
          · rename_i r3 hsp
            have h3 := ih _ _ _ _ _ h
            have h4 := skipSpace_length r3
            rw [hsp] at h2
            simp only [List.length_cons] at h2
            omega
          · rename_i r3 hsp
            simp only [Option.some.injEq, Prod.mk.injEq] at h
            obtain ⟨-, rfl⟩ := h
            rw [hsp] at h2
            simp only [List.length_cons] at h2
            omega
          · simp at h

/-- The bound on the number of calls is never reached: any bound above the
size of the task gives the same result. -/
theorem parse_fuel : ∀ (fuel fuel' depth : Nat) (m : Mode) (l : List Char),
    2 * l.length + m.weight < fuel → 2 * l.length + m.weight < fuel' →
    parse fuel depth m l = parse fuel' depth m l := by
  intro fuel
  induction fuel with
  | zero => intro fuel' depth m l h; omega
  | succ n ih =>
    intro fuel' depth m l h h'
    cases fuel' with
    | zero => omega
    | succ k =>
      cases m with
      | value =>
        simp only [Mode.weight] at h h'
        unfold parse
        split
        · rename_i t
          have hs := skipSpace_length t
          simp only [List.length_cons] at h h'
          split
          · rfl
          · split
            · rfl
            · exact ih _ _ _ _ (by simp only [Mode.weight]; omega)
                (by simp only [Mode.weight]; omega)
        · rename_i t
          have hs := skipSpace_length t
          simp only [List.length_cons] at h h'
          split
          · rfl
          · split
            · rfl
            · exact ih _ _ _ _ (by simp only [Mode.weight]; omega)
                (by simp only [Mode.weight]; omega)
        · rfl
      | elements acc =>
        simp only [Mode.weight] at h h'
        unfold parse
        rw [ih k depth .value l (by simp only [Mode.weight]; omega)
          (by simp only [Mode.weight]; omega)]
        split
        · rfl
        · rename_i v0 r0 hv
          have h1 := parse_length _ _ _ _ _ _ hv
          have h2 := skipSpace_length r0
          split
          · rename_i r1 hsp
            have h4 := skipSpace_length r1
            rw [hsp] at h2
            simp only [List.length_cons] at h2
            exact ih _ _ _ _ (by simp only [Mode.weight]; omega)
              (by simp only [Mode.weight]; omega)
          · rfl
          · rfl
      | members acc =>
        simp only [Mode.weight] at h h'
        unfold parse
        split
        · rfl
        · rename_i key r1 hk
          have h0 := scanKey_length _ _ _ hk
          rw [ih k depth .value r1 (by simp only [Mode.weight]; omega)
            (by simp only [Mode.weight]; omega)]
          split
          · rfl
          · rename_i v0 r2 hv
            have h1 := parse_length _ _ _ _ _ _ hv
            have h2 := skipSpace_length r2
            split
            · rename_i r3 hsp
              have h4 := skipSpace_length r3
              rw [hsp] at h2
              simp only [List.length_cons] at h2
              exact ih _ _ _ _ (by simp only [Mode.weight]; omega)
                (by simp only [Mode.weight]; omega)
            · rfl
            · rfl

/-- The bound `parseDocument` uses is enough for every body. -/
theorem parseDocument_fuel (data : String) (fuel : Nat) (h : 2 * data.length + 2 ≤ fuel) :
    parse fuel 0 .value (skipSpace data.toList) =
      parse (2 * data.length + 2) 0 .value (skipSpace data.toList) := by
  have hs := skipSpace_length data.toList
  have hl : data.toList.length = data.length := rfl
  exact parse_fuel _ _ _ _ _ (by simp only [Mode.weight]; omega)
    (by simp only [Mode.weight]; omega)

/-- Whether a value can be stored in a field does not depend on the struct. -/
theorem store_error (intSize : Nat) (f : Field) (v : Value) (s s' : HealthResponse) :
    (store intSize f v s).2 = (store intSize f v s').2 := by
  cases v <;> cases f <;> simp only [store]
  split
  · split <;> rfl
  · rfl

/-- The members of an object decode without error exactly when each member
that names a field carries `null` or a value of the field's type. -/
theorem decodeMembers_ok (intSize : Nat) (members : List (String × Value)) :
    ∀ (s : HealthResponse) (saved : Option Failure),
    (decodeMembers intSize members s saved).2 = none ↔
      saved = none ∧ ∀ kv ∈ members, ∀ f, findField kv.1 = some f →
        (store intSize f kv.2 HealthResponse.zero).2 = none := by
  induction members with
  | nil => intro s saved; simp [decodeMembers]
  | cons kv rest ih =>
    intro s saved
    obtain ⟨key, v⟩ := kv
    unfold decodeMembers
    split
    · rename_i hf
      rw [ih]
      simp [hf]
    · rename_i f hf
      split
      rename_i s1 err hst
      rw [ih]
      have herr : err = (store intSize f v HealthResponse.zero).2 := by
        rw [store_error intSize f v HealthResponse.zero s, hst]
      cases saved <;> simp [hf, herr, Option.orElse]

/-- A document decodes without error exactly when it is `null`, or an object
in which each member that names a field carries `null` or a value of the
field's type. -/
theorem decode_ok (intSize : Nat) (v : Value) (s : HealthResponse) :
    (decode intSize v s).2 = none ↔
      v = .null ∨ ∃ members, v = .object members ∧
        ∀ kv ∈ members, ∀ f, findField kv.1 = some f →
          (store intSize f kv.2 HealthResponse.zero).2 = none := by
  cases v <;> simp [decode, decodeMembers_ok]

end json

/-! ## The health probe -/

/-- A failed GET is returned by `GetVaultHealth` and answered by
`healthHandler` with 500 and the error text. -/
theorem healthHandler_get_error (env : Env) (r : openvpnAuthd) (cx : Context) (w : World)
    (err : GoError) (hget : env.httpGet (r.config.VaultURL ++ "/v1/sys/health") = .error err) :
    (GetVaultHealth env r w).1.2 = some err ∧
      (healthHandler env r cx w).1.status = 500 ∧
      (healthHandler env r cx w).1.body = .text err := by
  have hv : GetVaultHealth env r w =
      ((HealthResponse.zero, some err),
        w.record (.httpGet (r.config.VaultURL ++ "/v1/sys/health"))) := by
    unfold GetVaultHealth
    simp only [hget]
  unfold healthHandler
  rw [hv]
  exact ⟨rfl, rfl, rfl⟩

/-- A body that `json.Unmarshal` rejects is answered with 500 and the
decoding error. -/
theorem healthHandler_decode_error (env : Env) (r : openvpnAuthd) (cx : Context) (w : World)
    (res : HttpResponse) (s : HealthResponse) (err : GoError)
    (hget : env.httpGet (r.config.VaultURL ++ "/v1/sys/health") = .ok res)
    (hjson : json.Unmarshal env res.body HealthResponse.zero = (s, some err)) :
    (GetVaultHealth env r w).1.2 = some err ∧
      (healthHandler env r cx w).1.status = 500 ∧
      (healthHandler env r cx w).1.body = .text err := by
  have hv : GetVaultHealth env r w =
      ((s, some err), w.record (.httpGet (r.config.VaultURL ++ "/v1/sys/health"))) := by
    unfold GetVaultHealth
    simp only [hget, hjson]
  unfold healthHandler
  rw [hv]
  exact ⟨rfl, rfl, rfl⟩

/-- C8 (defect in the code): when reading the body ends with an error after a
complete JSON object has arrived, the read error is overwritten by the result
of `json.Unmarshal`: `GetVaultHealth` returns a nil error and `healthHandler`
answers 200. -/
theorem healthHandler_read_error_answers_200 :
    (truncatedBody.httpGet "https://vault.example.com/v1/sys/health").map
        (fun res => res.readErr) = .ok (some "unexpected EOF") ∧
      (GetVaultHealth truncatedBody (service "") World.initial).1.2 = none ∧
      (healthHandler truncatedBody (service "") anonymous World.initial).1.status = 200 ∧
      (healthHandler truncatedBody (service "") anonymous World.initial).1.body =
        .json { HealthResponse.zero with AppVersion := "v0.1.0" } :=
  ⟨rfl, rfl, rfl, rfl⟩

/-- The result of `json.Unmarshal` on a body that parses, from the result of
decoding the document. -/
theorem Unmarshal_of_parse (env : Env) (data : String) (v : json.Value) (s0 s : HealthResponse)
    (hparse : json.parseDocument data = some v)
    (hdecode : json.decode env.intSize v s0 = (s, none)) :
    json.Unmarshal env data s0 = (s, none) := by
  unfold json.Unmarshal
  simp only [hparse, hdecode]

/-- C9, counterexample: the body `{"sealed":"no"}` parses as JSON, to an
object with the one member `sealed`, and `healthHandler` answers it with 500
and the text of the type error, not with 200. -/
theorem healthHandler_valid_json_answers_500 :
    json.parseDocument mistypedBody = some (.object [("sealed", .string "no")]) ∧
      (mistyped.httpGet "https://vault.example.com/v1/sys/health").map (fun res => res.body)
        = .ok mistypedBody ∧
      (healthHandler mistyped (service "") anonymous World.initial).1.status = 500 ∧
      (healthHandler mistyped (service "") anonymous World.initial).1.body =
        .text "json: cannot unmarshal string into Go struct field HealthResponse.sealed of type bool" :=
  ⟨rfl, rfl, rfl, rfl⟩

/-- C9, as amended: when the GET succeeds, the body parses as JSON and the
document decodes into a `HealthResponse` `s` without a type error,
`healthHandler` answers 200 with a JSON body whose nine backend fields are
those of `s`, the values decoded from the body, and whose `app_version` is the
gateway's `Version`, whatever `app_version` the body carried. -/
theorem healthHandler_ok (env : Env) (r : openvpnAuthd) (cx : Context) (w : World)
    (res : HttpResponse) (v : json.Value) (s : HealthResponse)
    (hget : env.httpGet (r.config.VaultURL ++ "/v1/sys/health") = .ok res)
    (hparse : json.parseDocument res.body = some v)
    (hdecode : json.decode env.intSize v HealthResponse.zero = (s, none)) :
    ∃ h : HealthResponse,
      (healthHandler env r cx w).1.status = 200 ∧
      (healthHandler env r cx w).1.body = .json h ∧
      h.VaultInitialized = s.VaultInitialized ∧
      h.VaultSealed = s.VaultSealed ∧
      h.VaultStandby = s.VaultStandby ∧
      h.VaultReplicationPerformanceMode = s.VaultReplicationPerformanceMode ∧
      h.VaultReplicationDrMode = s.VaultReplicationDrMode ∧
      h.VaultServerTimeUtc = s.VaultServerTimeUtc ∧
      h.VaultVersion = s.VaultVersion ∧
      h.VaultClusterId = s.VaultClusterId ∧
      h.VaultClusterName = s.VaultClusterName ∧
      h.AppVersion = env.Version := by
  have hjson := Unmarshal_of_parse env res.body v HealthResponse.zero s hparse hdecode
  refine ⟨{ s with AppVersion := env.Version }, ?_, ?_, rfl, rfl, rfl, rfl, rfl, rfl, rfl, rfl,
    rfl, rfl⟩
  · unfold healthHandler GetVaultHealth
    simp only [hget, hjson]
    rfl
  · unfold healthHandler GetVaultHealth
    simp only [hget, hjson]
    rfl

set_option maxRecDepth 100000

/-- Witness of C9 as amended: the body of a sealed standby backend, which
carries an `app_version` of its own, is parsed and decoded. -/
theorem healthHandler_ok_witness :
    json.parseDocument healthBody = some healthDocument ∧
    ∃ h : HealthResponse,
      (healthHandler reporting (service "") anonymous World.initial).1.status = 200 ∧
      (healthHandler reporting (service "") anonymous World.initial).1.body = .json h ∧
      h.VaultInitialized = true ∧
      h.VaultSealed = true ∧
      h.VaultStandby = true ∧
      h.VaultReplicationPerformanceMode = "disabled" ∧
      h.VaultReplicationDrMode = "disabled" ∧
      h.VaultServerTimeUtc = 1500000000 ∧
      h.VaultVersion = "1.2.3" ∧
      h.VaultClusterId = "c-1" ∧
      h.VaultClusterName = "vault-cluster" ∧
      h.AppVersion = "v0.1.0" :=
  ⟨rfl, healthHandler_ok reporting (service "") anonymous World.initial
    ⟨healthBody, none⟩ healthDocument
    ⟨true, true, true, "disabled", "disabled", 1500000000, "1.2.3", "c-1", "vault-cluster",
      "backend"⟩ rfl rfl rfl⟩

end OpenVPNAuthd
